import Mathlib

/-!
Shallow embedding of the fixed-arena memory allocator in
src/Memory Allocator/mem.c.

Memory model: the arena is a flat byte array, modelled as a total function
from byte addresses (Int) to byte values.  The C code stores 32-bit signed
integers (the size_status field of block_tag) through 4-byte little-endian
accesses; read4 and write4 model exactly those accesses, including accesses
at unaligned addresses and accesses outside the mmap-ed region (the region
is obtained from /dev/zero, so the model initialises every byte to 0 and
treats out-of-range accesses as ordinary memory accesses).

The base address of the arena (first_block) is taken to be 0; mmap returns
a page-aligned pointer, so this preserves every alignment computation of
the source.  A block_tag pointer is a byte address; since
sizeof(block_tag) = 4, pointer arithmetic p + k on block_tag pointers is
modelled as p + 4 * k, while the char* arithmetic in the traversal loops
is p + k.  C integer division and remainder truncate toward zero, which is
Int.tdiv and Int.tmod; the C tests x & 1 and x & 2 on a two-complement int
are the low bits of x, i.e. x % 2 and the test 2 <= x % 4 (Euclidean
remainder).
-/

/-- Store a 32-bit little-endian two-complement integer at byte address a. -/
def write4 (m : Int → Int) (a v : Int) : Int → Int := fun x =>
  if x = a then v % 256
  else if x = a + 1 then (v / 256) % 256
  else if x = a + 2 then (v / 65536) % 256
  else if x = a + 3 then (v / 16777216) % 256
  else m x

/-- Read a 32-bit little-endian two-complement integer at byte address a. -/
def read4 (m : Int → Int) (a : Int) : Int :=
  let u := m a + 256 * m (a + 1) + 65536 * m (a + 2) + 16777216 * m (a + 3)
  if u < 2147483648 then u else u - 4294967296

/-- The allocator state: the backing byte region and the global
total_mem_size.  The global first_block is the fixed address 0. -/
structure MemState where
  mem : Int → Int
  total_mem_size : Int

/-- Rounding of the requested size to a multiple of 4, mem.c lines 79-87.
The C remainder operator truncates toward zero (Int.tmod). -/
def roundUp4 (size : Int) : Int :=
  if Int.tmod size 4 = 1 then size + 3
  else if Int.tmod size 4 = 2 then size + 2
  else if Int.tmod size 4 = 3 then size + 1
  else size

/-- Best-slot update of one iteration of the Mem_Alloc scan, mem.c lines
117-119: if (size <= current->size_status && (best_slot == NULL ||
current->size_status < best_slot->size_status)) best_slot = current. -/
def bestUpd (m : Int → Int) (need current : Int) (best_slot : Option Int) : Option Int :=
  if need ≤ read4 m current ∧
      (best_slot = none ∨ read4 m current < read4 m (best_slot.getD 0)) then
    some current
  else best_slot

/-- The traversal loop of Mem_Alloc, mem.c lines 105-123.  t_size is the raw
size_status; a block with odd size_status advances the cursor by t_size - 3
bytes, an even one by t_size - 2 bytes (char* arithmetic, line 122).  The
loop runs while current < first_block + total_mem_size; fuel makes the
recursion well founded (a run of the C loop that terminates within fuel
iterations is reproduced exactly). -/
def allocScan (m : Int → Int) (total need : Int) : Nat → Int → Option Int → Option Int
  | 0, _, best_slot => best_slot
  | fuel + 1, current, best_slot =>
    if current < total then
      if (read4 m current) % 2 = 1 then
        allocScan m total need fuel (current + (read4 m current - 3)) best_slot
      else
        allocScan m total need fuel (current + (read4 m current - 2))
          (bestUpd m need current best_slot)
    else best_slot

/-- The byte addresses visited by the Mem_Alloc traversal loop, in order
(the successive values of the variable current that satisfy the loop
condition).  Derived from the same loop, mem.c lines 105-123. -/
def scanVisits (m : Int → Int) (total : Int) : Nat → Int → List Int
  | 0, _ => []
  | fuel + 1, current =>
    if current < total then
      current ::
        (if (read4 m current) % 2 = 1 then
          scanVisits m total fuel (current + (read4 m current - 3))
        else
          scanVisits m total fuel (current + (read4 m current - 2)))
    else []

/-- Mem_Alloc, mem.c lines 71-149.  Returns the value of the C return
statement (NULL = none; otherwise the byte address of newBlock) together
with the new state.  block_tag pointer arithmetic is scaled by
sizeof(block_tag) = 4: best_slot + header_size is best_slot + 16 bytes,
best_slot + (size/4) is best_slot + 4*(size/4) bytes, and the footer
offset (splitBlock->size_status - 2)/4 - prev_block_allocated/4 - 1 is in
block_tag units as well. -/
def Mem_Alloc (st : MemState) (size0 : Int) : Option Int × MemState :=
  if size0 ≤ 0 then (none, st)
  else
    let size := roundUp4 size0 + 4
    let found := allocScan st.mem st.total_mem_size size (Int.toNat st.total_mem_size + 1) 0 none
    if found = none then (none, st)
    else
      let best_slot := found.getD 0
      let preSplitSize := read4 st.mem best_slot - 2
      let newBlock := best_slot + 4 * 4
      let m1 := write4 st.mem newBlock (size + 1 + 2)
      let m2 := write4 m1 (newBlock - 4 * 4) (read4 m1 newBlock)
      let splitBlock := best_slot + 4 * Int.tdiv size 4
      let m3 := write4 m2 splitBlock (preSplitSize - size + 2)
      let footer := splitBlock + 4 * (Int.tdiv (read4 m3 splitBlock - 2) 4 - Int.tdiv 2 4 - 1)
      let m4 := write4 m3 footer (preSplitSize - size + 2)
      (some newBlock, { st with mem := m4 })

/-- Mem_Free, mem.c lines 163-244.  ptr = none models a NULL argument.
blockToFree - 4 in block_tag units is ptr - 16 bytes.  Every memory read
in a condition or on the right of an assignment reads the memory as it is
at that program point; the four coalescing branches are the if/else-if
chain of lines 190-241, and the function returns 0 whenever the three
initial checks pass. -/
def Mem_Free (st : MemState) (ptr : Option Int) : Int × MemState :=
  if ptr = none then (-1, st)
  else
    let p := ptr.getD 0
    if p < 0 ∨ p > 0 + st.total_mem_size then (-1, st)
    else if Int.tmod p 4 ≠ 0 then (-1, st)
    else
      let cb := p - 4 * 4
      let m1 := write4 st.mem cb (read4 st.mem cb - 1)
      if (read4 m1 (cb + 4 * Int.tdiv (read4 m1 cb - 2) 4)) % 2 = 1 ∧
          Int.tmod (read4 m1 cb) 4 ≠ 0 then
        let m2 := write4 m1 (cb + 4 * (Int.tdiv (read4 m1 cb - 2) 4 - 4)) (read4 m1 cb)
        let n2 := cb + 4 * Int.tdiv (read4 m2 cb - 2) 4
        let m3 := write4 m2 n2 (read4 m2 n2 - 2)
        (0, { st with mem := m3 })
      else if (read4 m1 (cb + 4 * Int.tdiv (read4 m1 cb) 4)) % 2 = 1 ∧
          Int.tmod (read4 m1 cb) 4 = 0 then
        let footer := cb + 4 * (Int.tdiv (read4 m1 cb) 4 - 1)
        let m2 := write4 m1 footer (read4 m1 cb + read4 m1 (cb - 4 * 4))
        let cb2 := cb - 4 * Int.tdiv (read4 m2 (cb - 4 * 4)) 4
        let m3 := write4 m2 cb2 (read4 m2 footer)
        let m4 := write4 m3 (footer + 4) (read4 m3 (footer + 4) - 2)
        (0, { st with mem := m4 })
      else if Int.tmod (read4 m1 (cb + 4 * Int.tdiv (read4 m1 cb - 2) 4)) 2 = 0 ∧
          Int.tmod (read4 m1 cb) 4 ≠ 0 then
        let m2 := write4 m1 cb
          (read4 m1 cb + read4 m1 (cb + 4 * Int.tdiv (read4 m1 cb - 2) 4) - 2)
        let m3 := write4 m2 (cb + 4 * (Int.tdiv (read4 m2 cb - 2) 4 - 4)) (read4 m2 cb)
        (0, { st with mem := m3 })
      else if Int.tmod (read4 m1 (cb + 4 * Int.tdiv (read4 m1 cb) 4)) 2 = 0 ∧
          Int.tmod (read4 m1 cb) 4 = 0 then
        let temp := read4 m1 cb
        let m2 := write4 m1 cb (read4 m1 (cb + 4 * Int.tdiv (read4 m1 cb) 4) - 2)
        let footer := cb + 4 * (Int.tdiv (read4 m2 cb) 4 - 4)
        let temp2 := read4 m2 cb
        let cb2 := cb - 4 * Int.tdiv (read4 m2 (cb - 4 * 4) - 2) 4
        let m3 := write4 m2 cb2 (read4 m2 cb2 + temp + temp2)
        let m4 := write4 m3 footer (read4 m3 cb2)
        (0, { st with mem := m4 })
      else (0, { st with mem := m1 })

/-- Mem_Init, mem.c lines 252-309.  The environment interactions
(allocated_once, getpagesize, open, mmap) are modelled by passing the page
size as a parameter and by starting from an all-zero region (mmap of
/dev/zero); a successful call returns the initialised state.  The header
is written in two steps (lines 300-302) and the footer at byte
alloc_size - 4 (line 305). -/
def Mem_Init (sizeOfRegion pagesize : Int) : Option MemState :=
  if sizeOfRegion ≤ 0 then none
  else
    let padsize := Int.tmod sizeOfRegion pagesize
    let padsize2 := Int.tmod (pagesize - padsize) pagesize
    let alloc_size := sizeOfRegion + padsize2
    let m1 := write4 (fun _ => 0) 0 alloc_size
    let m2 := write4 m1 0 (read4 m1 0 + 2)
    let m3 := write4 m2 (alloc_size - 4) alloc_size
    some { mem := m3, total_mem_size := alloc_size }

/-- The block listing of Mem_Dump, mem.c lines 340-373: each entry is
(t_begin, busy, previous-busy, t_size) where t_size is the stored
size_status with the low flag bits subtracted exactly as Mem_Dump does
(t_size & 1, then t_size & 2; for an integer x the test x & 2 != 0 is
2 <= x % 4 in two-complement arithmetic).  The cursor advances by the
stripped t_size (line 371). -/
def listBlocks (m : Int → Int) (total : Int) : Nat → Int → List (Int × Bool × Bool × Int)
  | 0, _ => []
  | fuel + 1, current =>
    if current < total then
      if (read4 m current) % 2 = 1 then
        if 2 ≤ (read4 m current - 1) % 4 then
          (current, true, true, read4 m current - 1 - 2) ::
            listBlocks m total fuel (current + (read4 m current - 1 - 2))
        else
          (current, true, false, read4 m current - 1) ::
            listBlocks m total fuel (current + (read4 m current - 1))
      else
        if 2 ≤ (read4 m current) % 4 then
          (current, false, true, read4 m current - 2) ::
            listBlocks m total fuel (current + (read4 m current - 2))
        else
          (current, false, false, read4 m current) ::
            listBlocks m total fuel (current + (read4 m current))
    else []

/-- The block directory of a state, as Mem_Dump reports it. -/
def ListBlocks (st : MemState) : List (Int × Bool × Bool × Int) :=
  listBlocks st.mem st.total_mem_size (Int.toNat st.total_mem_size + 1) 0

/-- Sum of the reported block sizes, as accumulated by Mem_Dump in
busy_size + free_size. -/
def sumSizes (l : List (Int × Bool × Bool × Int)) : Int :=
  l.foldl (fun acc e => acc + e.2.2.2) 0

/-- Modelled from the spec (section 3, Data Model): the stored size field of
a header is its size_status with the two low flag bits cleared. -/
def sizeField (x : Int) : Int := x - x % 4

/-- Modelled from the spec (section 3, Data Model): decidable well-formedness
of the block chain of an arena.  Starting at address 0 with a busy sentinel
predecessor, every block must have a size field that is a positive multiple
of 4 of at least 8 (header plus footer), a prev_allocated bit equal to the
allocated bit of the preceding block, no two adjacent blocks both free, a
footer equal to the size field on every free block, and the blocks must
tile the interval from 0 to total exactly. -/
def chainOk (m : Int → Int) (total : Int) : Nat → Int → Bool → Bool
  | 0, _, _ => false
  | fuel + 1, current, prevBusy =>
    if current = total then true
    else if total < current then false
    else
      if (decide (2 ≤ (read4 m current) % 4)) != prevBusy then false
      else if sizeField (read4 m current) < 8 then false
      else if (read4 m current) % 2 = 1 then
        chainOk m total fuel (current + sizeField (read4 m current)) true
      else if ¬ prevBusy then false
      else if read4 m (current + sizeField (read4 m current) - 4) ≠ sizeField (read4 m current) then
        false
      else chainOk m total fuel (current + sizeField (read4 m current)) false

/-- An arena is consistent when its whole block chain is well formed. -/
def consistentArena (st : MemState) : Bool :=
  chainOk st.mem st.total_mem_size (Int.toNat st.total_mem_size + 1) 0 true

/-- The single free block state produced by a successful Mem_Init with
alloc_size = T: header T + 2 at address 0 (written in two steps, so the
first write of T is still visible in the trailing bytes model only through
the final values) and footer T at byte T - 4. -/
def singleFreeArena (T : Int) : MemState :=
  { mem := write4 (write4 (write4 (fun _ => 0) 0 T) 0
      (read4 (write4 (fun _ => 0) 0 T) 0 + 2)) (T - 4) T,
    total_mem_size := T }

/-- The state after Mem_Init(4096) with page size 4096. -/
def initSt : MemState :=
  (Mem_Init 4096 4096).getD { mem := fun _ => 0, total_mem_size := 0 }

/-- initSt after Mem_Alloc(8) (which returns the reference 16). -/
def stA : MemState := (Mem_Alloc initSt 8).2

/-- stA after a second Mem_Alloc(8) (which returns the reference 28). -/
def stAB : MemState := (Mem_Alloc stA 8).2

/-- stAB after a third Mem_Alloc(8) (which returns the reference 40). -/
def stABC : MemState := (Mem_Alloc stAB 8).2

/-- stABC after Mem_Free(16). -/
def chain1 : MemState := (Mem_Free stABC (some 16)).2

/-- chain1 after Mem_Free(28). -/
def chain2 : MemState := (Mem_Free chain1 (some 28)).2

/-- stA after Mem_Free(16): the arena is again one free block of 4096. -/
def dfree1 : MemState := (Mem_Free stA (some 16)).2

/-- initSt after Mem_Alloc(20) (which returns the reference 16). -/
def g0 : MemState := (Mem_Alloc initSt 20).2

/-- g0 after Mem_Free(16): again one free block of 4096 (header 4098). -/
def g1 : MemState := (Mem_Free g0 (some 16)).2

/-- A consistent 32-byte arena holding three blocks: a free block of 16 at
address 0 (header 18, footer 16 at byte 12), a busy block of 8 at address
16 with a free predecessor (header 9), and a free block of 8 at address 24
(header 10, footer 8 at byte 28).  Byte values, little endian. -/
def mem3 : Int → Int := fun a =>
  if a = 0 then 18
  else if a = 12 then 16
  else if a = 16 then 9
  else if a = 24 then 10
  else if a = 28 then 8
  else 0

/-- The consistent three-block arena as a state. -/
def st3 : MemState := { mem := mem3, total_mem_size := 32 }
theorem write4_at0 (m : Int → Int) (a v : Int) : write4 m a v a = v % 256 := by
  unfold write4
  simp

theorem write4_at1 (m : Int → Int) (a v : Int) : write4 m a v (a + 1) = (v / 256) % 256 := by
  unfold write4
  rw [if_neg (by omega), if_pos rfl]

theorem write4_at2 (m : Int → Int) (a v : Int) : write4 m a v (a + 2) = (v / 65536) % 256 := by
  unfold write4
  rw [if_neg (by omega), if_neg (by omega), if_pos rfl]

theorem write4_at3 (m : Int → Int) (a v : Int) : write4 m a v (a + 3) = (v / 16777216) % 256 := by
  unfold write4
  rw [if_neg (by omega), if_neg (by omega), if_neg (by omega), if_pos rfl]

theorem write4_out (m : Int → Int) (a v x : Int) (h : x < a ∨ a + 3 < x) :
    write4 m a v x = m x := by
  unfold write4
  rw [if_neg (by omega), if_neg (by omega), if_neg (by omega), if_neg (by omega)]

/-- Reading back a just-written value in the int range recovers it. -/
theorem read4_write4_same (m : Int → Int) (a v : Int) (h0 : 0 ≤ v) (h1 : v < 2147483648) :
    read4 (write4 m a v) a = v := by
  unfold read4
  rw [write4_at0, write4_at1, write4_at2, write4_at3]
  simp only []
  split <;> omega

/-- A 4-byte read at distance at least 4 from a 4-byte write is unaffected. -/
theorem read4_write4_other (m : Int → Int) (a v b : Int) (h : b + 4 ≤ a ∨ a + 4 ≤ b) :
    read4 (write4 m a v) b = read4 m b := by
  unfold read4
  rw [write4_out m a v b (by omega), write4_out m a v (b + 1) (by omega),
    write4_out m a v (b + 2) (by omega), write4_out m a v (b + 3) (by omega)]

/-- C1 (conservation): refuted on the code.  After a successful Init(4096),
a successful Alloc(8) (reference 16) and two successful Free(16) calls
(both return 0, since Mem_Free validates only non-null, range and
alignment), the header at 0 holds 8181, so the traversal from the first
byte yields a single block of reported size 8180 and the sum of the block
sizes is 8180, not total_mem_size = 4096. -/
theorem c1_conservation_fails :
    (Mem_Init 4096 4096).isSome = true ∧
    (Mem_Alloc initSt 8).1 = some 16 ∧
    (Mem_Free stA (some 16)).1 = 0 ∧
    (Mem_Free dfree1 (some 16)).1 = 0 ∧
    ListBlocks (Mem_Free dfree1 (some 16)).2 = [(0, true, false, 8180)] ∧
    sumSizes (ListBlocks (Mem_Free dfree1 (some 16)).2) = 8180 ∧
    (Mem_Free dfree1 (some 16)).2.total_mem_size = 4096 := by
  decide

/-- C2 (no adjacent free blocks): refuted on the code.  After Init(4096),
three successful Alloc(8) calls (references 16, 28, 40) and successful
Free(16) and Free(28), the final successful Free(40) takes the
both-neighbours-free branch, reads the bogus backward offset
coalescedBlock - 4 (16 bytes instead of the preceding footer) and leaves
the directory with two consecutive free blocks, at 0 (size 24) and at 24
(size 8132). -/
theorem c2_adjacent_free_after_free :
    (Mem_Alloc stA 8).1 = some 28 ∧
    (Mem_Alloc stAB 8).1 = some 40 ∧
    (Mem_Free stABC (some 16)).1 = 0 ∧
    (Mem_Free chain1 (some 28)).1 = 0 ∧
    (Mem_Free chain2 (some 40)).1 = 0 ∧
    ListBlocks (Mem_Free chain2 (some 40)).2 =
      [(0, false, true, 24), (24, false, false, 8132)] := by
  decide

/-- C3 (best-fit selection): refuted on the code.  st3 is a consistent
arena with free blocks of sizes 16 (at 0) and 8 (at 24) and one busy
block of 8 at 16 whose predecessor is free.  For Alloc(4), need is
roundUp4 4 + 4 = 8, so the best fit is the free block at 24 and the call
should hand out its payload (reference 24 + 16 under the source
convention newBlock = best_slot + header_size).  The scan instead
advances size_status - 3 = 6 bytes through the busy block, never parses
the header at 24, and selects the 16-byte block at 0, returning 16. -/
theorem c3_best_fit_fails :
    consistentArena st3 = true ∧
    ListBlocks st3 = [(0, false, true, 16), (16, true, false, 8), (24, false, true, 8)] ∧
    roundUp4 4 + 4 = 8 ∧
    (Mem_Alloc st3 4).1 = some 16 ∧
    (Mem_Alloc st3 4).1 ≠ some (24 + 4 * 4) := by
  decide

/-- C5 (returned reference is one header word past the block start):
refuted on the code.  After Init(4096), Alloc(8) allocates the block
[0, 12) (header word at 0, payload from byte 4) but returns 16 =
best_slot + 16 bytes, because newBlock = best_slot + header_size advances
header_size = 4 block_tag units, not 4 bytes. -/
theorem c5_payload_reference_fails :
    (Mem_Alloc initSt 8).1 = some 16 ∧
    ListBlocks stA = [(0, true, true, 12), (12, false, true, 4084)] ∧
    (16 : Int) ≠ 0 + 4 := by
  decide

/-- C6 (no-split threshold): refuted on the code.  After Init(4096),
Alloc(4088) needs 4092 bytes and finds the single 4096-byte free block;
the remainder 4 is below the minimum viable free block size 8 (header
plus footer), so the claim requires the whole block to become one
allocated block of 4096.  Mem_Alloc has no threshold test and always
splits: the directory afterwards holds a busy block of 4092 and a 4-byte
free block at 4092. -/
theorem c6_no_split_threshold_fails :
    (Mem_Alloc initSt 4088).1 = some 16 ∧
    (4096 : Int) - (roundUp4 4088 + 4) = 4 ∧
    ListBlocks (Mem_Alloc initSt 4088).2 = [(0, true, true, 4092), (4092, false, true, 4)] ∧
    ListBlocks (Mem_Alloc initSt 4088).2 ≠ [(0, true, true, 4096)] := by
  decide

/-- C7 (traversal advances by the stored size regardless of the flag
bits): refuted on the code for the Mem_Alloc traversal.  On the
consistent arena st3 the block at 16 is busy with stored size 8, so the
next block starts at 24; the Mem_Alloc loop instead advances by
size_status - 3 = 6 bytes and visits 22.  The bytes at 22 happen to read
as the even value 655360, so Alloc(16) (need 20, which no real free block
satisfies) selects the bogus address 22 and returns 38 = 22 + 16. -/
theorem c7_traversal_counterexample :
    consistentArena st3 = true ∧
    scanVisits mem3 32 33 0 = [0, 16, 22] ∧
    read4 mem3 16 = 9 ∧ sizeField 9 = 8 ∧ (16 : Int) + 8 = 24 ∧ (22 : Int) ≠ 24 ∧
    (Mem_Alloc st3 16).1 = some 38 := by
  decide

/-- C8 (double free rejected): refuted on the code.  After Init(4096) and
Alloc(20) (reference 16), the first Free(16) succeeds and restores the
single free block (header 4098).  The second Free(16) passes the only
checks Mem_Free performs (non-null, range, alignment), returns 0 instead
of the failure -1, and mutates the arena: the header at 0 becomes 8169. -/
theorem c8_double_free_counterexample :
    (Mem_Alloc initSt 20).1 = some 16 ∧
    (Mem_Free g0 (some 16)).1 = 0 ∧
    read4 g1.mem 0 = 4098 ∧
    (Mem_Free g1 (some 16)).1 = 0 ∧
    (Mem_Free g1 (some 16)).1 ≠ -1 ∧
    read4 (Mem_Free g1 (some 16)).2.mem 0 = 8169 := by
  decide

/-- C9 (free block footer equals the header size field): refuted on the
code.  After Init(4096), Alloc(8) splits off the free block [12, 4096):
its header at 12 is 4086, so its size field is 4084, and its last word is
byte 4092.  The footer written there is 4086, the full size_status with
the prev_allocated bit still set, not the size field 4084 (the block_tag
comment in mem.c requires the low two bits of a footer to be zero, and
Mem_Init writes its footer that way). -/
theorem c9_footer_value_fails :
    (Mem_Alloc initSt 8).1 = some 16 ∧
    ListBlocks stA = [(0, true, true, 12), (12, false, true, 4084)] ∧
    read4 stA.mem 12 = 4086 ∧
    sizeField (read4 stA.mem 12) = 4084 ∧
    read4 stA.mem 4092 = 4086 ∧
    read4 stA.mem 4092 ≠ sizeField (read4 stA.mem 12) := by
  decide

/-- Mem_Free performs no allocated-bit or header-consistency check: every
non-null pointer that passes the range and alignment checks is accepted
and every branch of the coalescing chain returns 0. -/
theorem memFree_accepts (st : MemState) (p : Int) (h0 : 0 ≤ p)
    (h1 : p ≤ st.total_mem_size) (h2 : Int.tmod p 4 = 0) :
    (Mem_Free st (some p)).1 = 0 := by
  unfold Mem_Free
  rw [if_neg (by simp)]
  simp only [Option.getD_some]
  rw [if_neg (by omega), if_neg (by simp [h2])]
  split
  · rfl
  · split
    · rfl
    · split
      · rfl
      · split <;> rfl

/-- C8 amended: a second Free on the same reference is not rejected.
Mem_Free validates only that the pointer is non-null, within
[first_block, first_block + total_mem_size] and 4-byte aligned; every
pointer passing those checks is accepted with return value 0 (and the
header it designates is decremented again), so a double free returns
success, not a failure result. -/
theorem c8_second_free_not_rejected (st : MemState) (p : Int) (h0 : 0 ≤ p)
    (h1 : p ≤ st.total_mem_size) (h2 : Int.tmod p 4 = 0) :
    (Mem_Free st (some p)).1 = 0 :=
  memFree_accepts st p h0 h1 h2

/-- Witness for c8_second_free_not_rejected at the concrete double-free
state g1 and the reference 16 returned by Alloc(20). -/
theorem c8_second_free_not_rejected_witness :
    (0 : Int) ≤ 16 ∧ (16 : Int) ≤ g1.total_mem_size ∧ Int.tmod 16 4 = 0 ∧
    (Mem_Free g1 (some 16)).1 = 0 :=
  ⟨by decide, by decide, by decide,
    c8_second_free_not_rejected g1 16 (by decide) (by decide) (by decide)⟩

/-- C10: the range validation of Mem_Free rejects exactly the pointers
strictly below first_block (address 0) or strictly above
first_block + total_mem_size; in particular a word-aligned non-null
pointer equal to the one-past-the-end address total_mem_size passes the
range check and the call is not rejected at all (it returns 0). -/
theorem c10_range_check (st : MemState) :
    (∀ p : Int, p < 0 ∨ p > st.total_mem_size → (Mem_Free st (some p)).1 = -1) ∧
    (0 ≤ st.total_mem_size → Int.tmod st.total_mem_size 4 = 0 →
      (Mem_Free st (some st.total_mem_size)).1 = 0) := by
  constructor
  · intro p hp
    unfold Mem_Free
    rw [if_neg (by simp)]
    simp only [Option.getD_some]
    rw [if_pos (by omega)]
  · intro h0 h4
    exact memFree_accepts st st.total_mem_size h0 le_rfl h4

/-- Witness for c10_range_check on an arena of total size 8: the pointer 9
is rejected as out of range, and the one-past-the-end pointer 8 is
accepted. -/
theorem c10_range_check_witness :
    (Mem_Free { mem := fun _ => 0, total_mem_size := 8 } (some 9)).1 = -1 ∧
    (Mem_Free { mem := fun _ => 0, total_mem_size := 8 } (some 8)).1 = 0 :=
  ⟨(c10_range_check { mem := fun _ => 0, total_mem_size := 8 }).1 9 (by decide),
    (c10_range_check { mem := fun _ => 0, total_mem_size := 8 }).2 (by decide) (by decide)⟩

/-- C7 amended: the Mem_Dump traversal (listBlocks) does advance by
exactly the stored size field (size_status with both flag bits cleared),
regardless of the flag bits, at every step; the Mem_Alloc scan advances by
size_status - 3 on a busy block and size_status - 2 on a free block, which
equals the stored size field exactly when the prev_allocated bit of the
header is set (size_status % 4 being 3 or 2 respectively). -/
theorem c7_traversal_amended :
    (∀ (m : Int → Int) (total : Int) (fuel : Nat) (current : Int),
      current < total → ∃ b pb : Bool,
        listBlocks m total (fuel + 1) current =
          (current, b, pb, sizeField (read4 m current)) ::
            listBlocks m total fuel (current + sizeField (read4 m current))) ∧
    (∀ (m : Int → Int) (total need : Int) (fuel : Nat) (current : Int) (best : Option Int),
      current < total → 2 ≤ (read4 m current) % 4 →
        allocScan m total need (fuel + 1) current best =
          allocScan m total need fuel (current + sizeField (read4 m current))
            (if (read4 m current) % 2 = 1 then best else bestUpd m need current best)) := by
  constructor
  · intro m total fuel current h
    rw [listBlocks, if_pos h]
    generalize read4 m current = x
    by_cases h1 : x % 2 = 1
    · rw [if_pos h1]
      by_cases h2 : 2 ≤ (x - 1) % 4
      · refine ⟨true, true, ?_⟩
        rw [if_pos h2]
        have hs : x - 1 - 2 = sizeField x := by
          unfold sizeField
          omega
        rw [hs]
      · refine ⟨true, false, ?_⟩
        rw [if_neg h2]
        have hs : x - 1 = sizeField x := by
          unfold sizeField
          omega
        rw [hs]
    · rw [if_neg h1]
      by_cases h2 : 2 ≤ x % 4
      · refine ⟨false, true, ?_⟩
        rw [if_pos h2]
        have hs : x - 2 = sizeField x := by
          unfold sizeField
          omega
        rw [hs]
      · refine ⟨false, false, ?_⟩
        rw [if_neg h2]
        have hs : sizeField x = x := by
          unfold sizeField
          omega
        rw [hs]
  · intro m total need fuel current best h hprev
    rw [allocScan, if_pos h]
    by_cases h1 : (read4 m current) % 2 = 1
    · rw [if_pos h1, if_pos h1]
      have hs : read4 m current - 3 = sizeField (read4 m current) := by
        unfold sizeField
        omega
      rw [hs]
    · rw [if_neg h1, if_neg h1]
      have hs : read4 m current - 2 = sizeField (read4 m current) := by
        unfold sizeField
        omega
      rw [hs]

/-- Witness for c7_traversal_amended at the concrete arena mem3 and its
first block (header 18, size field 16, prev_allocated set). -/
theorem c7_traversal_amended_witness :
    (∃ b pb : Bool, listBlocks mem3 32 2 0 =
      (0, b, pb, sizeField (read4 mem3 0)) ::
        listBlocks mem3 32 1 (0 + sizeField (read4 mem3 0))) ∧
    allocScan mem3 32 8 2 0 none =
      allocScan mem3 32 8 1 (0 + sizeField (read4 mem3 0))
        (if (read4 mem3 0) % 2 = 1 then none else bestUpd mem3 8 0 none) :=
  ⟨c7_traversal_amended.1 mem3 32 1 0 (by decide),
    c7_traversal_amended.2 mem3 32 8 1 0 none (by decide) (by decide)⟩

/-- Arithmetic facts about the rounding step for a positive request. -/
theorem roundUp4_facts (n : Int) (hn : 0 < n) :
    (roundUp4 n) % 4 = 0 ∧ n ≤ roundUp4 n ∧ roundUp4 n ≤ n + 3 := by
  unfold roundUp4
  have ht : Int.tmod n 4 = n % 4 := Int.tmod_eq_emod (by omega) (by omega)
  rw [ht]
  split_ifs <;> omega

/-- A successful Mem_Init with a page size equal to the requested size
produces exactly the single free block arena. -/
theorem mem_init_single (T : Int) (h : 0 < T) :
    Mem_Init T T = some (singleFreeArena T) := by
  unfold Mem_Init singleFreeArena
  rw [if_neg (by omega)]
  have h1 : Int.tmod T T = 0 := by
    rw [Int.tmod_eq_emod (by omega) (by omega), Int.emod_self]
  simp only [h1, sub_zero, add_zero]

/-- The header read of the single free block arena. -/
theorem read4_sfa_zero (T : Int) (h24 : 24 ≤ T) (hbig : T ≤ 2147483640) :
    read4 (singleFreeArena T).mem 0 = T + 2 := by
  unfold singleFreeArena
  rw [read4_write4_same _ _ _ (by omega) (by omega)]
  rw [read4_write4_other _ _ _ _ (by omega)]
  rw [read4_write4_same _ _ _ (by omega) (by omega)]

/-- On the single free block arena the Mem_Alloc scan inspects the one
block at 0, finds it free and large enough, and returns it. -/
theorem scan_sfa (T s : Int) (h24 : 24 ≤ T) (hbig : T ≤ 2147483640) (hT4 : T % 4 = 0)
    (hsT : s ≤ T) :
    allocScan (singleFreeArena T).mem T s (Int.toNat T + 1) 0 none = some 0 := by
  have hr := read4_sfa_zero T h24 hbig
  rw [allocScan, if_pos (by omega : (0:Int) < T), hr]
  rw [if_neg (by omega : ¬(T + 2) % 2 = 1)]
  have hb : bestUpd (singleFreeArena T).mem s 0 none = some 0 := by
    unfold bestUpd
    rw [hr, if_pos ⟨by omega, Or.inl rfl⟩]
  rw [hb]
  have hadv : 0 + (T + 2 - 2) = T := by ring
  rw [hadv]
  obtain ⟨k, hk⟩ : ∃ k, Int.toNat T = k + 1 := ⟨Int.toNat T - 1, by omega⟩
  rw [hk, allocScan, if_neg (by omega : ¬ T < T)]

theorem sfa_total (T : Int) : (singleFreeArena T).total_mem_size = T := rfl

/-- Full evaluation of Mem_Alloc on the single free block arena: the block
at 0 is selected, the reference 16 is returned, and the four stores are
the stray header copy at 16, the real header s + 3 at 0, the remainder
header T - s + 2 at byte s and the remainder footer T - s + 2 at byte
T - 4, where s = roundUp4 n + 4. -/
theorem alloc_sfa (T n : Int) (h24 : 24 ≤ T) (hbig : T ≤ 2147483640) (hT4 : T % 4 = 0)
    (hn : 0 < n) (hfit : roundUp4 n + 4 ≤ T) :
    Mem_Alloc (singleFreeArena T) n =
      (some 16,
        { mem := write4 (write4 (write4 (write4 (singleFreeArena T).mem 16
            (roundUp4 n + 4 + 1 + 2)) 0 (roundUp4 n + 4 + 1 + 2)) (roundUp4 n + 4)
            (T - (roundUp4 n + 4) + 2)) (T - 4) (T - (roundUp4 n + 4) + 2),
          total_mem_size := T }) := by
  obtain ⟨hr4, hle, hub⟩ := roundUp4_facts n hn
  set s := roundUp4 n + 4 with hs
  have hs4 : s % 4 = 0 := by omega
  have hs8 : 8 ≤ s := by omega
  unfold Mem_Alloc
  rw [if_neg (by omega)]
  rw [sfa_total, ← hs]
  simp only []
  rw [scan_sfa T s h24 hbig hT4 (by omega)]
  rw [if_neg (by simp)]
  simp only [Option.getD_some]
  rw [read4_sfa_zero T h24 hbig]
  have e1 : (0 : Int) + 4 * 4 = 16 := by norm_num
  rw [e1]
  have e2 : (16 : Int) - 4 * 4 = 0 := by norm_num
  rw [e2]
  have e3 : read4 (write4 (singleFreeArena T).mem 16 (s + 1 + 2)) 16 = s + 1 + 2 :=
    read4_write4_same _ _ _ (by omega) (by omega)
  rw [e3]
  have e4 : (0 : Int) + 4 * Int.tdiv s 4 = s := by
    rw [Int.tdiv_eq_ediv (by omega) (by omega)]
    omega
  rw [e4]
  have e5 : T + 2 - 2 - s + 2 = T - s + 2 := by ring
  rw [e5]
  have e6 : read4 (write4 (write4 (write4 (singleFreeArena T).mem 16 (s + 1 + 2)) 0
      (s + 1 + 2)) s (T - s + 2)) s = T - s + 2 :=
    read4_write4_same _ _ _ (by omega) (by omega)
  rw [e6]
  have e7 : T - s + 2 - 2 = T - s := by ring
  rw [e7]
  have e8 : s + 4 * (Int.tdiv (T - s) 4 - Int.tdiv 2 4 - 1) = T - 4 := by
    rw [Int.tdiv_eq_ediv (by omega) (by omega)]
    rw [(by decide : Int.tdiv 2 4 = 0)]
    omega
  rw [e8]

/-- Evaluation of Mem_Free(16) on an arena whose first block is the busy
block [0, s) with header s + 3 and whose remainder block at s has header
T - s + 2: the header is decremented to s + 2 (mark free), the
previous-busy next-free branch (case 3) fires, the merged header T + 2 is
written at 0 and the merged footer T + 2 at byte T - 16. -/
theorem free_busy_first_block (T s : Int) (M0 : Int → Int) (h24 : 24 ≤ T)
    (hbig : T ≤ 2147483640) (hT4 : T % 4 = 0) (hs8 : 8 ≤ s) (hs4 : s % 4 = 0) (hsT : s ≤ T)
    (hM0 : read4 M0 0 = s + 3) (hMs : read4 M0 s = T - s + 2) :
    Mem_Free { mem := M0, total_mem_size := T } (some 16) =
      (0, { mem := write4 (write4 (write4 M0 0 (s + 2)) 0 (T + 2)) (T - 16) (T + 2),
            total_mem_size := T }) := by
  unfold Mem_Free
  rw [if_neg (by simp)]
  simp only [Option.getD_some]
  rw [if_neg (by omega : ¬((16:Int) < 0 ∨ (16:Int) > 0 + T))]
  rw [if_neg (by decide : ¬Int.tmod (16:Int) 4 ≠ 0)]
  have c0 : (16 : Int) - 4 * 4 = 0 := by norm_num
  rw [c0, hM0]
  have v1 : s + 3 - 1 = s + 2 := by ring
  rw [v1]
  have h10 : read4 (write4 M0 0 (s + 2)) 0 = s + 2 :=
    read4_write4_same _ _ _ (by omega) (by omega)
  rw [h10]
  have a1 : s + 2 - 2 = s := by ring
  rw [a1]
  have a2 : (0 : Int) + 4 * Int.tdiv s 4 = s := by
    rw [Int.tdiv_eq_ediv (by omega) (by omega)]
    omega
  rw [a2]
  have a3 : (0 : Int) + 4 * Int.tdiv (s + 2) 4 = s := by
    rw [Int.tdiv_eq_ediv (by omega) (by omega)]
    omega
  rw [a3]
  have hRs : read4 (write4 M0 0 (s + 2)) s = T - s + 2 := by
    rw [read4_write4_other _ _ _ _ (by omega : s + 4 ≤ 0 ∨ (0:Int) + 4 ≤ s)]
    exact hMs
  rw [hRs]
  have ht1 : Int.tmod (s + 2) 4 = (s + 2) % 4 := Int.tmod_eq_emod (by omega) (by omega)
  rw [ht1]
  have ht2 : Int.tmod (T - s + 2) 2 = (T - s + 2) % 2 := Int.tmod_eq_emod (by omega) (by omega)
  rw [ht2]
  rw [if_neg (by omega : ¬((T - s + 2) % 2 = 1 ∧ (s + 2) % 4 ≠ 0))]
  rw [if_neg (by omega : ¬((T - s + 2) % 2 = 1 ∧ (s + 2) % 4 = 0))]
  rw [if_pos (⟨by omega, by omega⟩ : (T - s + 2) % 2 = 0 ∧ (s + 2) % 4 ≠ 0)]
  have v2 : s + 2 + (T - s + 2) - 2 = T + 2 := by ring
  rw [v2]
  have h20 : read4 (write4 (write4 M0 0 (s + 2)) 0 (T + 2)) 0 = T + 2 :=
    read4_write4_same _ _ _ (by omega) (by omega)
  rw [h20]
  have v3 : T + 2 - 2 = T := by ring
  rw [v3]
  have a4 : (0 : Int) + 4 * (Int.tdiv T 4 - 4) = T - 16 := by
    rw [Int.tdiv_eq_ediv (by omega) (by omega)]
    omega
  rw [a4]

/-- A memory whose word at 0 reads T + 2 lists as the single free block
(0, Free, previous Busy, T) when its total is T. -/
theorem listBlocks_single_free (T : Int) (M : Int → Int) (h24 : 24 ≤ T) (hT4 : T % 4 = 0)
    (hM : read4 M 0 = T + 2) :
    listBlocks M T (Int.toNat T + 1) 0 = [(0, false, true, T)] := by
  rw [listBlocks, if_pos (by omega : (0:Int) < T), hM]
  rw [if_neg (by omega : ¬(T + 2) % 2 = 1), if_pos (by omega : 2 ≤ (T + 2) % 4)]
  have e : T + 2 - 2 = T := by ring
  rw [e, zero_add]
  obtain ⟨k, hk⟩ : ∃ k, Int.toNat T = k + 1 := ⟨Int.toNat T - 1, by omega⟩
  rw [hk, listBlocks, if_neg (by omega : ¬T < T)]

/-- C4 (round-trip): on an arena consisting of the single free block of
size T, a successful Alloc(n) immediately followed by Free of the
returned reference (always 16) succeeds and restores the block directory
to exactly the single free block (0, Free, previous Busy, T): same single
block, same size, same boundaries 0 and T. -/
theorem c4_roundtrip (T n : Int) (hT4 : T % 4 = 0) (h24 : 24 ≤ T) (hbig : T ≤ 2147483640)
    (hn : 0 < n) (hfit : roundUp4 n + 4 ≤ T) :
    Mem_Init T T = some (singleFreeArena T) ∧
    (Mem_Alloc (singleFreeArena T) n).1 = some 16 ∧
    (Mem_Free (Mem_Alloc (singleFreeArena T) n).2 (some 16)).1 = 0 ∧
    ListBlocks (Mem_Free (Mem_Alloc (singleFreeArena T) n).2 (some 16)).2 =
      ListBlocks (singleFreeArena T) ∧
    ListBlocks (singleFreeArena T) = [(0, false, true, T)] := by
  obtain ⟨hr4, hle, hub⟩ := roundUp4_facts n hn
  have hA := alloc_sfa T n h24 hbig hT4 hn hfit
  set s := roundUp4 n + 4 with hs
  have hs4 : s % 4 = 0 := by omega
  have hs8 : 8 ≤ s := by omega
  have hsT : s ≤ T := hfit
  have hM0 : read4 (write4 (write4 (write4 (write4 (singleFreeArena T).mem 16 (s + 1 + 2)) 0
      (s + 1 + 2)) s (T - s + 2)) (T - 4) (T - s + 2)) 0 = s + 3 := by
    rw [read4_write4_other _ _ _ _ (by omega : (0:Int) + 4 ≤ T - 4 ∨ T - 4 + 4 ≤ 0)]
    rw [read4_write4_other _ _ _ _ (by omega : (0:Int) + 4 ≤ s ∨ s + 4 ≤ 0)]
    rw [read4_write4_same _ _ _ (by omega) (by omega)]
    ring
  have hMs : read4 (write4 (write4 (write4 (write4 (singleFreeArena T).mem 16 (s + 1 + 2)) 0
      (s + 1 + 2)) s (T - s + 2)) (T - 4) (T - s + 2)) s = T - s + 2 := by
    rcases (by omega : s + 4 ≤ T - 4 ∨ s = T - 4 ∨ s = T) with hc | hc | hc
    · rw [read4_write4_other _ _ _ _ (Or.inl hc)]
      exact read4_write4_same _ _ _ (by omega) (by omega)
    · rw [hc]
      exact read4_write4_same _ _ _ (by omega) (by omega)
    · rw [hc]
      rw [read4_write4_other _ _ _ _ (by omega : T + 4 ≤ T - 4 ∨ T - 4 + 4 ≤ T)]
      exact read4_write4_same _ _ _ (by omega) (by omega)
  have hF := free_busy_first_block T s _ h24 hbig hT4 hs8 hs4 hsT hM0 hMs
  have hFr : read4 (write4 (write4 (write4 (write4 (write4 (write4 (write4
      (singleFreeArena T).mem 16 (s + 1 + 2)) 0 (s + 1 + 2)) s (T - s + 2)) (T - 4)
      (T - s + 2)) 0 (s + 2)) 0 (T + 2)) (T - 16) (T + 2)) 0 = T + 2 := by
    rw [read4_write4_other _ _ _ _ (by omega : (0:Int) + 4 ≤ T - 16 ∨ T - 16 + 4 ≤ 0)]
    exact read4_write4_same _ _ _ (by omega) (by omega)
  refine ⟨mem_init_single T (by omega), ?_, ?_, ?_, ?_⟩
  · rw [hA]
  · rw [hA]
    dsimp only
    rw [hF]
  · rw [hA]
    dsimp only
    rw [hF]
    dsimp only
    unfold ListBlocks
    dsimp only
    rw [listBlocks_single_free T _ h24 hT4 hFr, sfa_total]
    rw [listBlocks_single_free T _ h24 hT4 (read4_sfa_zero T h24 hbig)]
  · unfold ListBlocks
    rw [sfa_total]
    rw [listBlocks_single_free T _ h24 hT4 (read4_sfa_zero T h24 hbig)]

/-- Witness for c4_roundtrip at T = 4096 and n = 8. -/
theorem c4_roundtrip_witness :
    Mem_Init 4096 4096 = some (singleFreeArena 4096) ∧
    (Mem_Alloc (singleFreeArena 4096) 8).1 = some 16 ∧
    (Mem_Free (Mem_Alloc (singleFreeArena 4096) 8).2 (some 16)).1 = 0 ∧
    ListBlocks (Mem_Free (Mem_Alloc (singleFreeArena 4096) 8).2 (some 16)).2 =
      ListBlocks (singleFreeArena 4096) ∧
    ListBlocks (singleFreeArena 4096) = [(0, false, true, 4096)] :=
  c4_roundtrip 4096 8 (by decide) (by decide) (by decide) (by decide) (by decide)
